import Mathlib

/-!
Verification development for the dew-stream-server signaling core.

The development shallowly embeds three parts of the source:
- the mediasoup room manager (Room class, room registry) in namespace RoomMgr;
- the mediasoup worker pool (round-robin worker selection) in namespace Sfu;
- the WebSocket signaling server (connection gate and close handler) in
  namespace WsSig.

JavaScript Map objects are embedded as association lists in insertion order:
Map.set replaces the value at the first matching key in place (JS Maps keep
the original insertion position on overwrite) and appends otherwise.
-/

set_option maxRecDepth 4000

namespace JsMap

def mapGet {α β : Type} [DecidableEq α] (k : α) : List (α × β) → Option β
  | [] => none
  | (k2, v) :: rest => if k2 = k then some v else mapGet k rest

def mapSet {α β : Type} [DecidableEq α] (k : α) (v : β) : List (α × β) → List (α × β)
  | [] => [(k, v)]
  | (k2, v2) :: rest => if k2 = k then (k, v) :: rest else (k2, v2) :: mapSet k v rest

def mapDelete {α β : Type} [DecidableEq α] (k : α) : List (α × β) → List (α × β)
  | [] => []
  | (k2, v2) :: rest => if k2 = k then rest else (k2, v2) :: mapDelete k rest

theorem mapGet_mapSet_self {α β : Type} [DecidableEq α] (k : α) (v : β) (l : List (α × β)) :
    mapGet k (mapSet k v l) = some v := by
  induction l with
  | nil => simp [mapGet, mapSet]
  | cons hd tl ih =>
    obtain ⟨k1, v1⟩ := hd
    by_cases h : k1 = k
    · simp [mapSet, h, mapGet]
    · simp [mapSet, h, mapGet, ih]

theorem mapGet_mapSet_ne {α β : Type} [DecidableEq α] (k k2 : α) (v : β) (l : List (α × β))
    (h : k2 ≠ k) : mapGet k2 (mapSet k v l) = mapGet k2 l := by
  induction l with
  | nil => simp [mapGet, mapSet, Ne.symm h]
  | cons hd tl ih =>
    obtain ⟨k1, v1⟩ := hd
    by_cases hh : k1 = k
    · subst hh
      simp [mapSet, mapGet, Ne.symm h]
    · by_cases hk2 : k1 = k2
      · simp [mapSet, hh, mapGet, hk2, h]
      · simp [mapSet, hh, mapGet, hk2, ih]

theorem mapGet_eq_none_of_not_mem {α β : Type} [DecidableEq α] (k : α) (l : List (α × β))
    (h : k ∉ l.map Prod.fst) : mapGet k l = none := by
  induction l with
  | nil => simp [mapGet]
  | cons hd tl ih =>
    obtain ⟨k1, v1⟩ := hd
    simp only [List.map_cons, List.mem_cons] at h
    push_neg at h
    simp [mapGet, Ne.symm h.1, ih h.2]

theorem mapGet_mapDelete_self {α β : Type} [DecidableEq α] (k : α) (l : List (α × β))
    (hnd : (l.map Prod.fst).Nodup) : mapGet k (mapDelete k l) = none := by
  induction l with
  | nil => simp [mapDelete, mapGet]
  | cons hd tl ih =>
    obtain ⟨k1, v1⟩ := hd
    simp only [List.map_cons, List.nodup_cons] at hnd
    by_cases h : k1 = k
    · subst h
      simpa [mapDelete] using mapGet_eq_none_of_not_mem k1 tl hnd.1
    · simp [mapDelete, h, mapGet, ih hnd.2]

theorem mapGet_some_mem_keys {α β : Type} [DecidableEq α] (k : α) (v : β) (l : List (α × β))
    (h : mapGet k l = some v) : k ∈ l.map Prod.fst := by
  induction l with
  | nil => simp [mapGet] at h
  | cons hd tl ih =>
    obtain ⟨k1, v1⟩ := hd
    by_cases hh : k1 = k
    · simp [hh]
    · simp only [mapGet, hh, if_neg] at h
      simp only [List.map_cons, List.mem_cons]
      exact Or.inr (ih h)

theorem mapSet_length_of_mem {α β : Type} [DecidableEq α] (k : α) (v : β) (l : List (α × β))
    (h : k ∈ l.map Prod.fst) : (mapSet k v l).length = l.length := by
  induction l with
  | nil => simp at h
  | cons hd tl ih =>
    obtain ⟨k1, v1⟩ := hd
    by_cases hh : k1 = k
    · simp [mapSet, hh]
    · simp only [List.map_cons, List.mem_cons] at h
      have hm : k ∈ tl.map Prod.fst := by
        rcases h with h | h
        · exact absurd h.symm hh
        · exact h
      simp [mapSet, hh, ih hm]

theorem keys_mapSet_of_mem {α β : Type} [DecidableEq α] (k : α) (v : β) (l : List (α × β))
    (h : k ∈ l.map Prod.fst) : (mapSet k v l).map Prod.fst = l.map Prod.fst := by
  induction l with
  | nil => simp at h
  | cons hd tl ih =>
    obtain ⟨k1, v1⟩ := hd
    by_cases hh : k1 = k
    · simp [mapSet, hh]
    · simp only [List.map_cons, List.mem_cons] at h
      have hm : k ∈ tl.map Prod.fst := by
        rcases h with h | h
        · exact absurd h.symm hh
        · exact h
      simp [mapSet, hh, ih hm]

theorem keys_mapSet_of_not_mem {α β : Type} [DecidableEq α] (k : α) (v : β) (l : List (α × β))
    (h : k ∉ l.map Prod.fst) : (mapSet k v l).map Prod.fst = l.map Prod.fst ++ [k] := by
  induction l with
  | nil => simp [mapSet]
  | cons hd tl ih =>
    obtain ⟨k1, v1⟩ := hd
    simp only [List.map_cons, List.mem_cons] at h
    push_neg at h
    have h1 : k1 ≠ k := fun he => h.1 he.symm
    simp [mapSet, h1, ih h.2]

theorem keys_mapSet_nodup {α β : Type} [DecidableEq α] (k : α) (v : β) (l : List (α × β))
    (hnd : (l.map Prod.fst).Nodup) : ((mapSet k v l).map Prod.fst).Nodup := by
  by_cases hm : k ∈ l.map Prod.fst
  · rw [keys_mapSet_of_mem k v l hm]
    exact hnd
  · rw [keys_mapSet_of_not_mem k v l hm]
    simp only [List.nodup_append, List.nodup_singleton, List.disjoint_singleton]
    exact ⟨hnd, trivial, hm⟩

end JsMap

namespace RoomMgr

open JsMap

/-- A producer handle returned by producerTransport.produce: its id and media kind. -/
structure Producer where
  pid : String
  kind : String
deriving DecidableEq

/-- A consumer handle returned by consumerTransport.consume: the source reads
paused: true, so every consumer is created in the paused state. -/
structure Consumer where
  cid : String
  producerId : String
  kind : String
  paused : Bool
deriving DecidableEq

/-- A viewer record as stored in Room.viewers: its socket readiness flag
(readyState equal to 1), its consumer transport id, and its consumers map
keyed by producerId. -/
structure Viewer where
  wsReady : Bool
  consumerTransport : Nat
  consumers : List (String × Consumer)
deriving DecidableEq

/-- The publisher record as stored in Room.publisher: peer id, producer
transport id, and the producers map keyed by media kind. -/
structure Publisher where
  peerId : String
  producerTransport : Nat
  producers : List (String × Producer)
deriving DecidableEq

/-- The router handle of a room; canConsume embeds router.canConsume, with
rtpCapabilities kept abstract as a natural number. -/
structure Router where
  rid : Nat
  canConsume : String → Nat → Bool

/-- The Room class state: token, router, optional publisher, viewers map. -/
structure Room where
  tokenAddress : String
  router : Router
  publisher : Option Publisher
  viewers : List (String × Viewer)

/-- Close calls an operation performs on engine resources: consumer ids,
transport ids and producer ids passed to a close call, plus the router. -/
structure Effects where
  closedConsumers : List String
  closedTransports : List Nat
  closedProducers : List String
  routerClosed : Bool
deriving DecidableEq

def noEffects : Effects := ⟨[], [], [], false⟩

def appendE (a b : Effects) : Effects :=
  ⟨a.closedConsumers ++ b.closedConsumers,
   a.closedTransports ++ b.closedTransports,
   a.closedProducers ++ b.closedProducers,
   a.routerClosed || b.routerClosed⟩

/-- Room.setPublisher: rejects when a different peer holds the slot, otherwise
creates a fresh producer transport (fresh id nextTid) and installs the new
Publisher record. Mirrors the source: no close call is issued on a superseded
record. -/
def setPublisher (room : Room) (peerId : String) (nextTid : Nat) :
    Except String Nat × Room × Effects :=
  match room.publisher with
  | some pub =>
    if pub.peerId ≠ peerId then
      (Except.error "Room already has a publisher", room, noEffects)
    else
      (Except.ok nextTid,
       { room with publisher := some ⟨peerId, nextTid, []⟩ }, noEffects)
  | none =>
    (Except.ok nextTid,
     { room with publisher := some ⟨peerId, nextTid, []⟩ }, noEffects)

/-- Room.produce: requires a publisher transport; stores the new producer
keyed by kind (Map.set overwrite) and notifies every viewer whose socket has
readyState 1 with a new-producer message carrying the producer id and kind. -/
def produce (room : Room) (kind : String) (freshPid : String) :
    Except String String × Room × List (String × String × String) :=
  match room.publisher with
  | none => (Except.error "No publisher transport", room, [])
  | some pub =>
    let producer : Producer := ⟨freshPid, kind⟩
    let pub2 : Publisher := ⟨pub.peerId, pub.producerTransport,
      mapSet kind producer pub.producers⟩
    let msgs := (room.viewers.filter (fun v => v.2.wsReady)).map
      (fun v => (v.1, freshPid, kind))
    (Except.ok freshPid, { room with publisher := some pub2 }, msgs)

/-- Room.addViewer: creates a fresh consumer transport and registers the
viewer record keyed by peerId (Map.set overwrite). Mirrors the source: no
close call is issued on a superseded record. -/
def addViewer (room : Room) (peerId : String) (wsReady : Bool) (nextTid : Nat) :
    Nat × Room × Effects :=
  (nextTid,
   { room with viewers := mapSet peerId ⟨wsReady, nextTid, []⟩ room.viewers },
   noEffects)

/-- The producer lookup inside Room.consume: scan publisher.producers values
for the first one whose id matches. -/
def findProducer (pub : Option Publisher) (producerId : String) : Option Producer :=
  match pub with
  | none => none
  | some p => (p.producers.map Prod.snd).find? (fun pr => pr.pid = producerId)

/-- Room.consume: fails for an unknown viewer, a missing producer, or when
router.canConsume rejects the capabilities; otherwise creates a paused
consumer stored keyed by producerId in the viewer consumers map. -/
def consume (room : Room) (peerId producerId : String) (caps : Nat) (freshCid : String) :
    Except String Consumer × Room × Effects :=
  match mapGet peerId room.viewers with
  | none => (Except.error "Viewer not found", room, noEffects)
  | some viewer =>
    match findProducer room.publisher producerId with
    | none => (Except.error "Producer not found", room, noEffects)
    | some producer =>
      if room.router.canConsume producerId caps = false then
        (Except.error "Cannot consume - incompatible RTP capabilities", room, noEffects)
      else
        let consumer : Consumer := ⟨freshCid, producerId, producer.kind, true⟩
        let viewer2 : Viewer := ⟨viewer.wsReady, viewer.consumerTransport,
          mapSet producerId consumer viewer.consumers⟩
        (Except.ok consumer,
         { room with viewers := mapSet peerId viewer2 room.viewers }, noEffects)

/-- Room.removeViewer: closes all of the viewer consumers, closes its
consumer transport, deletes the record, and returns the remaining count. -/
def removeViewer (room : Room) (peerId : String) : Room × Nat × Effects :=
  match mapGet peerId room.viewers with
  | none => (room, room.viewers.length, noEffects)
  | some viewer =>
    let room2 := { room with viewers := mapDelete peerId room.viewers }
    (room2, room2.viewers.length,
     ⟨viewer.consumers.map (fun c => c.2.cid), [viewer.consumerTransport], [], false⟩)

/-- Room.removePublisher: closes all producers and the producer transport,
then clears the publisher slot. -/
def removePublisher (room : Room) : Room × Effects :=
  match room.publisher with
  | none => (room, noEffects)
  | some pub =>
    ({ room with publisher := none },
     ⟨[], [pub.producerTransport], pub.producers.map (fun p => p.2.pid), false⟩)

/-- The viewer loop of Room.close: removeViewer for each key of the viewers
map in iteration order. -/
def closeViewersLoop (room : Room) : List String → Room × Effects
  | [] => (room, noEffects)
  | k :: rest =>
    let step := removeViewer room k
    let recCall := closeViewersLoop step.1 rest
    (recCall.1, appendE step.2.2 recCall.2)

/-- Room.close: remove every viewer, remove the publisher, close the router. -/
def closeRoom (room : Room) : Room × Effects :=
  let step1 := closeViewersLoop room (room.viewers.map Prod.fst)
  let step2 := removePublisher step1.1
  (step2.1, appendE (appendE step1.2 step2.2) ⟨[], [], [], true⟩)

/-- Room.hasPublisher: publisher slot occupied and producers map non-empty. -/
def hasPublisher (room : Room) : Bool :=
  match room.publisher with
  | none => false
  | some pub => decide (0 < pub.producers.length)

/-- Room.getViewerCount. -/
def getViewerCount (room : Room) : Nat := room.viewers.length

/-- The module-level room registry: tokenAddress to Room. -/
abbrev Registry : Type := List (String × Room)

/-- deleteRoom: close and remove the room when present, no-op otherwise. -/
def deleteRoom (reg : Registry) (token : String) : Registry × Effects :=
  match mapGet token reg with
  | none => (reg, noEffects)
  | some room => ((mapDelete token reg : List (String × Room)), (closeRoom room).2)

/-- Modelled from the spec: the Signaling-Server disconnect step that decides
Room deletion. The signaling server in src (streaming-ws.js) maintains its own
socket-only room table and never drives this mediasoup registry; the spec
states that the Signaling Server deletes a Room when hasPublisher is false
(no publisher with at least one active producer) and the viewer count is
zero. -/
def cleanupAfterDisconnect (reg : Registry) (token : String) : Registry :=
  match mapGet token reg with
  | none => reg
  | some room =>
    if hasPublisher room = false ∧ getViewerCount room = 0 then
      (deleteRoom reg token).1
    else reg

end RoomMgr

namespace Sfu

/-- The mediasoup worker pool: the workers array (worker ids standing in for
worker handles) and the round-robin cursor nextWorkerIndex. -/
structure WorkerPool where
  workers : List Nat
  nextWorkerIndex : Nat
deriving DecidableEq

/-- getNextWorker: throws when the pool is empty; otherwise reads
workers[nextWorkerIndex] (none models the JavaScript undefined read when the
cursor is out of bounds) and advances the cursor modulo the pool length. -/
def getNextWorker (p : WorkerPool) : Except String (Option Nat) × WorkerPool :=
  if p.workers.length = 0 then
    (Except.error "No mediasoup workers available", p)
  else
    (Except.ok p.workers[p.nextWorkerIndex]?,
     { p with nextWorkerIndex := (p.nextWorkerIndex + 1) % p.workers.length })

/-- The died handler body: indexOf plus splice removes the first occurrence of
the dead worker from the pool; the cursor is left untouched. -/
def workerDied (p : WorkerPool) (w : Nat) : WorkerPool :=
  { p with workers := p.workers.erase w }

end Sfu

namespace WsSig

open JsMap

/-- String.prototype.toLowerCase restricted to the per-character lowering the
source relies on for address comparison. -/
def strLower (s : String) : String := String.mk (s.data.map Char.toLower)

/-- The persisted stream record fields the signaling server reads or writes;
timestamps are reduced to set flags. -/
structure StreamRec where
  userId : String
  isLive : Bool
  startTimeSet : Bool
  endTimeSet : Bool
  viewerCount : Nat
deriving DecidableEq

/-- The stream collection keyed by publicStreamName. -/
abbrev Db : Type := List (String × StreamRec)

/-- A WebSocket connection handle: identity and readyState (1 is OPEN). -/
structure WsConn where
  wsId : Nat
  readyState : Nat
deriving DecidableEq

/-- A signaling room: optional publisher socket and viewerId-to-socket map. -/
structure WsRoom where
  publisher : Option WsConn
  viewers : List (String × WsConn)
deriving DecidableEq

def emptyWsRoom : WsRoom := ⟨none, []⟩

/-- The signaling room table keyed by tokenAddress. -/
abbrev Rooms : Type := List (String × WsRoom)

/-- The connection query parameters read by the connection handler. -/
structure ConnParams where
  tokenAddress : Option String
  isCreator : Option String
  role : Option String
  userAddress : Option String
deriving DecidableEq

/-- The outcome of the connection handler: an immediate close with a code and
reason, or an accepted connection with the effective role. -/
inductive Outcome where
  | closed (code : Nat) (reason : String)
  | accepted (role : String) (token : String)
deriving DecidableEq

def tokenOf (p : ConnParams) : String := strLower (p.tokenAddress.getD "")

def userOf (p : ConnParams) : String := strLower (p.userAddress.getD "")

def isCreatorOf (p : ConnParams) : Bool :=
  (p.isCreator = some "true") || (p.role = some "publisher")

/-- The publisher authorization gate (the creator branch before any room
access): returns the close code and reason when the gate refuses the
connection, none when it passes. -/
def authGate (db : Db) (tokenAddress userAddress : String) (isCreator : Bool) :
    Option (Nat × String) :=
  if isCreator = false then none
  else if userAddress = "" then some (1008, "Missing userAddress")
  else
    match mapGet tokenAddress (db : List (String × StreamRec)) with
    | none => some (1008, "Stream not registered")
    | some stream =>
      if strLower stream.userId ≠ userAddress then
        some (1008, "Not authorized publisher")
      else none

/-- findOneAndUpdate on the stream collection: update when present, no-op
otherwise. -/
def dbUpdate (db : Db) (token : String) (f : StreamRec → StreamRec) : Db :=
  match mapGet token (db : List (String × StreamRec)) with
  | none => db
  | some r => (mapSet token (f r) (db : List (String × StreamRec)) : List (String × StreamRec))

/-- Whether the room for a token currently holds a publisher socket with
readyState 1. -/
def hasLivePublisher (rooms : Rooms) (token : String) : Bool :=
  match mapGet token (rooms : List (String × WsRoom)) with
  | none => false
  | some room =>
    match room.publisher with
    | none => false
    | some pub => decide (pub.readyState = 1)

def isAccepted : Outcome → Bool
  | Outcome.accepted _ _ => true
  | Outcome.closed _ _ => false

/-- The wss connection handler: parameter parsing, the missing-token check,
the publisher authorization gate, room creation, and installation of the
socket as publisher or viewer (with the database mirror writes). freshViewerId
stands for the generated viewer id. -/
def handleConnection (db : Db) (rooms : Rooms) (p : ConnParams) (ws : WsConn)
    (freshViewerId : String) : Outcome × Rooms × Db :=
  let tokenAddress := tokenOf p
  let isCreator := isCreatorOf p
  let userAddress := userOf p
  if tokenAddress = "" then (Outcome.closed 1008 "Missing tokenAddress", rooms, db)
  else
    match authGate db tokenAddress userAddress isCreator with
    | some cr => (Outcome.closed cr.1 cr.2, rooms, db)
    | none =>
      let rooms1 : Rooms :=
        if (mapGet tokenAddress (rooms : List (String × WsRoom))).isNone then
          (mapSet tokenAddress emptyWsRoom (rooms : List (String × WsRoom)) : List (String × WsRoom))
        else rooms
      let room := (mapGet tokenAddress (rooms1 : List (String × WsRoom))).getD emptyWsRoom
      if isCreator then
        match room.publisher with
        | some pub =>
          if pub.readyState = 1 then
            (Outcome.closed 1013 "Publisher already connected", rooms1, db)
          else
            let rooms2 : Rooms :=
              (mapSet tokenAddress { room with publisher := some ws }
                (rooms1 : List (String × WsRoom)) : List (String × WsRoom))
            let db2 := dbUpdate db tokenAddress (fun r =>
              { r with isLive := true, startTimeSet := true,
                       viewerCount := room.viewers.length })
            (Outcome.accepted "publisher" tokenAddress, rooms2, db2)
        | none =>
          let rooms2 : Rooms :=
            (mapSet tokenAddress { room with publisher := some ws }
              (rooms1 : List (String × WsRoom)) : List (String × WsRoom))
          let db2 := dbUpdate db tokenAddress (fun r =>
            { r with isLive := true, startTimeSet := true,
                     viewerCount := room.viewers.length })
          (Outcome.accepted "publisher" tokenAddress, rooms2, db2)
      else
        let viewers2 := mapSet freshViewerId ws room.viewers
        let rooms2 : Rooms :=
          (mapSet tokenAddress { room with viewers := viewers2 }
            (rooms1 : List (String × WsRoom)) : List (String × WsRoom))
        let db2 := dbUpdate db tokenAddress (fun r => { r with viewerCount := viewers2.length })
        (Outcome.accepted "viewer" tokenAddress, rooms2, db2)

/-- Push messages the close handler sends. -/
inductive PushMsg where
  | publisherEnded
  | viewerLeft (viewerId : String)
  | viewerCount (n : Nat)
deriving DecidableEq

/-- The ws close handler: the publisher branch marks the record offline,
pushes publisher-ended to every viewer and empties the room; the viewer branch
removes the viewer, notifies the publisher and remaining viewers, and mirrors
the count; in both branches the room is deleted from the table when it has no
publisher and zero viewers. Messages are tagged with the destination wsId. -/
def handleClose (db : Db) (rooms : Rooms) (token : String) (role : String)
    (viewerId : Option String) : Db × Rooms × List (Nat × PushMsg) :=
  match mapGet token (rooms : List (String × WsRoom)) with
  | none => (db, rooms, [])
  | some room =>
    if role = "publisher" then
      let db2 := dbUpdate db token (fun r =>
        { r with isLive := false, endTimeSet := true, viewerCount := 0 })
      let msgs := room.viewers.map (fun v => (v.2.wsId, PushMsg.publisherEnded))
      (db2, (mapDelete token (rooms : List (String × WsRoom)) : List (String × WsRoom)), msgs)
    else
      let viewers2 :=
        match viewerId with
        | some vid => mapDelete vid room.viewers
        | none => room.viewers
      let room2 : WsRoom := ⟨room.publisher, viewers2⟩
      let leftMsgs : List (Nat × PushMsg) :=
        match room.publisher, viewerId with
        | some pub, some vid =>
          if pub.readyState = 1 then [(pub.wsId, PushMsg.viewerLeft vid)] else []
        | _, _ => []
      let countPubMsgs : List (Nat × PushMsg) :=
        match room.publisher with
        | some pub =>
          if pub.readyState = 1 then [(pub.wsId, PushMsg.viewerCount viewers2.length)] else []
        | none => []
      let countViewerMsgs :=
        (viewers2.filter (fun v => v.2.readyState = 1)).map
          (fun v => (v.2.wsId, PushMsg.viewerCount viewers2.length))
      let db2 := dbUpdate db token (fun r => { r with viewerCount := viewers2.length })
      let rooms2 : Rooms :=
        if room2.publisher = none ∧ viewers2.length = 0 then
          (mapDelete token (rooms : List (String × WsRoom)) : List (String × WsRoom))
        else
          (mapSet token room2 (rooms : List (String × WsRoom)) : List (String × WsRoom))
      (db2, rooms2, leftMsgs ++ countPubMsgs ++ countViewerMsgs)

end WsSig

namespace RoomMgr

/-- Claim C1: at most one publisher per room — a setPublisher call while a
different peer holds the slot throws the protocol error and leaves the room
(hence the publisher slot) unchanged, while a call with the slot empty or
held by the same peer succeeds and installs the Publisher record. -/
theorem C1_setPublisher_single_publisher (room : Room) (peerId : String) (tid : Nat) :
    (∀ pub, room.publisher = some pub → pub.peerId ≠ peerId →
      (setPublisher room peerId tid).1 = Except.error "Room already has a publisher" ∧
      (setPublisher room peerId tid).2.1 = room) ∧
    ((room.publisher = none ∨ (∃ pub, room.publisher = some pub ∧ pub.peerId = peerId)) →
      (setPublisher room peerId tid).1 = Except.ok tid ∧
      (setPublisher room peerId tid).2.1.publisher = some ⟨peerId, tid, []⟩) := by
  constructor
  · intro pub hpub hne
    simp [setPublisher, hpub, hne]
  · rintro (hnone | ⟨pub, hpub, heq⟩)
    · simp [setPublisher, hnone]
    · simp [setPublisher, hpub, heq]

def wRouter : Router := ⟨0, fun _ _ => true⟩

def c1room : Room := ⟨"tok", wRouter, some ⟨"alice", 0, []⟩, []⟩

/-- Witness for C1 at a concrete room whose publisher is peer alice: the call
by bob is refused and changes nothing; the call by alice succeeds. -/
theorem C1_setPublisher_single_publisher_witness :
    (setPublisher c1room "bob" 1).1 = Except.error "Room already has a publisher" ∧
    (setPublisher c1room "bob" 1).2.1 = c1room ∧
    (setPublisher c1room "alice" 1).2.1.publisher = some ⟨"alice", 1, []⟩ := by
  refine ⟨?_, ?_, ?_⟩
  · exact ((C1_setPublisher_single_publisher c1room "bob" 1).1 ⟨"alice", 0, []⟩ rfl
      (by decide)).1
  · exact ((C1_setPublisher_single_publisher c1room "bob" 1).1 ⟨"alice", 0, []⟩ rfl
      (by decide)).2
  · exact ((C1_setPublisher_single_publisher c1room "alice" 1).2
      (Or.inr ⟨⟨"alice", 0, []⟩, rfl, rfl⟩)).2

def c9room : Room := ⟨"tok", wRouter, some ⟨"p", 7, []⟩, [("v", ⟨true, 9, []⟩)]⟩

/-- Claim C9 evaluated at the failing input: a reconnect by the same peer id
replaces the publisher record (transport 7 superseded by transport 10) and
the viewer record (transport 9 superseded by transport 10) while the
operations issue no close call at all, so the superseded transports are
leaked in the open state, contrary to the claim. -/
theorem C9_reconnect_leaks_superseded_transport :
    (setPublisher c9room "p" 10).2.1.publisher = some ⟨"p", 10, []⟩ ∧
    (setPublisher c9room "p" 10).2.2 = noEffects ∧
    (addViewer c9room "v" true 10).2.1.viewers = [("v", ⟨true, 10, []⟩)] ∧
    (addViewer c9room "v" true 10).2.2 = noEffects :=
  ⟨rfl, rfl, rfl, rfl⟩

end RoomMgr

namespace Sfu

/-- Claim C7 evaluated at the failing input: with pool workers 10 and 20 the
cursor advances to 1 after one call; when worker 10 then dies it is spliced
out and the cursor is not adjusted, so the next call reads index 1 of the
one-element pool and returns the undefined read (none) although the pool is
non-empty — contrary to the claim that a non-empty pool always yields a pool
element. The first conjunct checks the empty-pool error branch. -/
theorem C7_getNextWorker_stale_cursor_bug :
    (getNextWorker ⟨[], 0⟩).1 = Except.error "No mediasoup workers available" ∧
    getNextWorker ⟨[10, 20], 0⟩ = (Except.ok (some 10), ⟨[10, 20], 1⟩) ∧
    workerDied ⟨[10, 20], 1⟩ 10 = ⟨[20], 1⟩ ∧
    (getNextWorker ⟨[20], 1⟩).1 = Except.ok none ∧
    ([20] : List Nat).length ≠ 0 :=
  ⟨rfl, rfl, rfl, rfl, by decide⟩

end Sfu

namespace RoomMgr

open JsMap

/-- Claim C3: consume throws and leaves the room unchanged when the viewer is
unknown, when no producer with the requested id exists, or when
router.canConsume rejects the capabilities; otherwise it succeeds and the
created consumer starts paused and is stored keyed by producerId in the
consumers map of that viewer. -/
theorem C3_consume_error_cases (room : Room) (peerId producerId : String) (caps : Nat)
    (cid : String) :
    (mapGet peerId room.viewers = none →
      (consume room peerId producerId caps cid).1 = Except.error "Viewer not found" ∧
      (consume room peerId producerId caps cid).2.1 = room) ∧
    (∀ viewer, mapGet peerId room.viewers = some viewer →
      findProducer room.publisher producerId = none →
      (consume room peerId producerId caps cid).1 = Except.error "Producer not found" ∧
      (consume room peerId producerId caps cid).2.1 = room) ∧
    (∀ viewer producer, mapGet peerId room.viewers = some viewer →
      findProducer room.publisher producerId = some producer →
      room.router.canConsume producerId caps = false →
      (consume room peerId producerId caps cid).1 =
        Except.error "Cannot consume - incompatible RTP capabilities" ∧
      (consume room peerId producerId caps cid).2.1 = room) ∧
    (∀ viewer producer, mapGet peerId room.viewers = some viewer →
      findProducer room.publisher producerId = some producer →
      room.router.canConsume producerId caps = true →
      (consume room peerId producerId caps cid).1 =
        Except.ok ⟨cid, producerId, producer.kind, true⟩ ∧
      ∃ viewer2,
        mapGet peerId (consume room peerId producerId caps cid).2.1.viewers = some viewer2 ∧
        mapGet producerId viewer2.consumers = some ⟨cid, producerId, producer.kind, true⟩) := by
  refine ⟨?_, ?_, ?_, ?_⟩
  · intro h
    simp [consume, h]
  · intro viewer hv hp
    simp [consume, hv, hp]
  · intro viewer producer hv hp hc
    simp [consume, hv, hp, hc]
  · intro viewer producer hv hp hc
    refine ⟨by simp [consume, hv, hp, hc], ?_⟩
    refine ⟨⟨viewer.wsReady, viewer.consumerTransport,
      mapSet producerId ⟨cid, producerId, producer.kind, true⟩ viewer.consumers⟩, ?_, ?_⟩
    · simp [consume, hv, hp, hc, mapGet_mapSet_self]
    · exact mapGet_mapSet_self _ _ _

def c3room : Room := ⟨"tok", wRouter, some ⟨"alice", 0, [("video", ⟨"p1", "video"⟩)]⟩,
  [("v", ⟨true, 9, []⟩)]⟩

/-- Witness for C3 at a concrete room: unknown viewer and unknown producer
fail, and the successful call yields the paused consumer. -/
theorem C3_consume_error_cases_witness :
    (consume c3room "nobody" "p1" 0 "c1").1 = Except.error "Viewer not found" ∧
    (consume c3room "v" "zzz" 0 "c1").1 = Except.error "Producer not found" ∧
    (consume c3room "v" "p1" 0 "c1").1 = Except.ok ⟨"c1", "p1", "video", true⟩ := by
  refine ⟨?_, ?_, ?_⟩
  · exact ((C3_consume_error_cases c3room "nobody" "p1" 0 "c1").1 rfl).1
  · exact ((C3_consume_error_cases c3room "v" "zzz" 0 "c1").2.1 ⟨true, 9, []⟩ rfl rfl).1
  · exact ((C3_consume_error_cases c3room "v" "p1" 0 "c1").2.2.2 ⟨true, 9, []⟩
      ⟨"p1", "video"⟩ rfl rfl rfl).1

/-- Claim C4: produce throws without a publisher transport; otherwise the
producers map afterwards maps the kind to exactly the new producer (any prior
producer of the same kind overwritten, other kinds untouched) and a
new-producer notification carrying the new producer id and kind goes to every
viewer whose socket is connected. -/
theorem C4_produce_lastwins_notify (room : Room) (kind : String) (pid : String) :
    (room.publisher = none →
      (produce room kind pid).1 = Except.error "No publisher transport" ∧
      (produce room kind pid).2.1 = room) ∧
    (∀ pub, room.publisher = some pub →
      (produce room kind pid).1 = Except.ok pid ∧
      (∃ pub2, (produce room kind pid).2.1.publisher = some pub2 ∧
        mapGet kind pub2.producers = some ⟨pid, kind⟩ ∧
        ∀ k, k ≠ kind → mapGet k pub2.producers = mapGet k pub.producers) ∧
      (produce room kind pid).2.2 =
        (room.viewers.filter (fun v => v.2.wsReady)).map (fun v => (v.1, pid, kind))) := by
  constructor
  · intro h
    simp [produce, h]
  · intro pub hpub
    refine ⟨by simp [produce, hpub], ?_, by simp [produce, hpub]⟩
    refine ⟨⟨pub.peerId, pub.producerTransport, mapSet kind ⟨pid, kind⟩ pub.producers⟩,
      ?_, ?_, ?_⟩
    · simp [produce, hpub]
    · exact mapGet_mapSet_self _ _ _
    · intro k hk
      exact mapGet_mapSet_ne _ _ _ _ hk

def c4room : Room := ⟨"tok", wRouter, some ⟨"alice", 0, [("video", ⟨"old", "video"⟩)]⟩,
  [("v", ⟨true, 9, []⟩), ("w", ⟨false, 11, []⟩)]⟩

/-- Witness for C4 at a concrete room: the prior video producer is overwritten
by the new one and only the connected viewer v is notified. -/
theorem C4_produce_lastwins_notify_witness :
    (produce c4room "video" "new").1 = Except.ok "new" ∧
    (∃ pub2, (produce c4room "video" "new").2.1.publisher = some pub2 ∧
      mapGet "video" pub2.producers = some ⟨"new", "video"⟩) ∧
    (produce c4room "video" "new").2.2 = [("v", "new", "video")] := by
  have h := (C4_produce_lastwins_notify c4room "video" "new").2
    ⟨"alice", 0, [("video", ⟨"old", "video"⟩)]⟩ rfl
  refine ⟨h.1, ?_, ?_⟩
  · obtain ⟨pub2, h1, h2, _⟩ := h.2.1
    exact ⟨pub2, h1, h2⟩
  · rw [h.2.2]
    rfl

/-- Claim C10: a second successful consume for the same viewer and producerId
replaces the existing map entry (same key, map length unchanged, keys still
without duplicates) and the operation issues no close call, so the replaced
consumer object is not closed by the replacement. -/
theorem C10_consume_replaces_entry (room : Room) (peerId producerId : String) (caps : Nat)
    (cid : String) (viewer : Viewer) (c0 : Consumer) (producer : Producer)
    (hv : mapGet peerId room.viewers = some viewer)
    (hc : mapGet producerId viewer.consumers = some c0)
    (hp : findProducer room.publisher producerId = some producer)
    (hcan : room.router.canConsume producerId caps = true)
    (hnd : (viewer.consumers.map Prod.fst).Nodup) :
    ∃ viewer2,
      mapGet peerId (consume room peerId producerId caps cid).2.1.viewers = some viewer2 ∧
      mapGet producerId viewer2.consumers = some ⟨cid, producerId, producer.kind, true⟩ ∧
      viewer2.consumers.length = viewer.consumers.length ∧
      (viewer2.consumers.map Prod.fst).Nodup ∧
      (consume room peerId producerId caps cid).2.2 = noEffects := by
  refine ⟨⟨viewer.wsReady, viewer.consumerTransport,
    mapSet producerId ⟨cid, producerId, producer.kind, true⟩ viewer.consumers⟩,
    ?_, ?_, ?_, ?_, ?_⟩
  · simp [consume, hv, hp, hcan, mapGet_mapSet_self]
  · exact mapGet_mapSet_self _ _ _
  · exact mapSet_length_of_mem _ _ _ (mapGet_some_mem_keys _ _ _ hc)
  · exact keys_mapSet_nodup _ _ _ hnd
  · simp [consume, hv, hp, hcan]

def c10room : Room := ⟨"tok", wRouter, some ⟨"alice", 0, [("video", ⟨"p1", "video"⟩)]⟩,
  [("v", ⟨true, 9, [("p1", ⟨"cOld", "p1", "video", true⟩)]⟩)]⟩

/-- Witness for C10 at a concrete room whose viewer already consumes p1: the
second consume keeps one entry, replaces it with the new consumer, and closes
nothing. -/
theorem C10_consume_replaces_entry_witness :
    ∃ viewer2,
      mapGet "v" (consume c10room "v" "p1" 0 "cNew").2.1.viewers = some viewer2 ∧
      mapGet "p1" viewer2.consumers = some ⟨"cNew", "p1", "video", true⟩ ∧
      viewer2.consumers.length = 1 ∧
      (viewer2.consumers.map Prod.fst).Nodup ∧
      (consume c10room "v" "p1" 0 "cNew").2.2 = noEffects := by
  obtain ⟨v2, h1, h2, h3, h4, h5⟩ := C10_consume_replaces_entry c10room "v" "p1" 0 "cNew"
    ⟨true, 9, [("p1", ⟨"cOld", "p1", "video", true⟩)]⟩ ⟨"cOld", "p1", "video", true⟩
    ⟨"p1", "video"⟩ rfl rfl rfl rfl (by decide)
  exact ⟨v2, h1, h2, h3, h4, h5⟩

end RoomMgr

namespace RoomMgr

open JsMap

/-- The consumer ids of every consumer held by any viewer of the room. -/
def viewerConsumerIds (room : Room) : List String :=
  room.viewers.flatMap (fun v => v.2.consumers.map (fun c => c.2.cid))

/-- The consumer transport ids of all viewers of the room. -/
def viewerTransportIds (room : Room) : List Nat :=
  room.viewers.map (fun v => v.2.consumerTransport)

/-- The producer transport id of the publisher, when one is installed. -/
def pubTransportIds (room : Room) : List Nat :=
  match room.publisher with
  | none => []
  | some pub => [pub.producerTransport]

/-- The producer ids held by the publisher, when one is installed. -/
def pubProducerIds (room : Room) : List String :=
  match room.publisher with
  | none => []
  | some pub => pub.producers.map (fun p => p.2.pid)

theorem closeViewersLoop_spec (l : List (String × Viewer)) (tok : String) (rt : Router)
    (pub : Option Publisher) :
    closeViewersLoop ⟨tok, rt, pub, l⟩ (l.map Prod.fst) =
      (⟨tok, rt, pub, []⟩,
       ⟨l.flatMap (fun v => v.2.consumers.map (fun c => c.2.cid)),
        l.map (fun v => v.2.consumerTransport), [], false⟩) := by
  induction l with
  | nil => simp [closeViewersLoop, noEffects]
  | cons hd tl ih =>
    obtain ⟨k1, v1⟩ := hd
    simp only [List.map_cons, closeViewersLoop, removeViewer, mapGet, if_pos, mapDelete,
      List.flatMap_cons, appendE, ih]
    simp [appendE]

theorem closeRoom_spec (room : Room) :
    closeRoom room =
      ({ room with viewers := [], publisher := none },
       ⟨viewerConsumerIds room, viewerTransportIds room ++ pubTransportIds room,
        pubProducerIds room, true⟩) := by
  obtain ⟨tok, rt, pub, vs⟩ := room
  cases pub with
  | none =>
    simp [closeRoom, closeViewersLoop_spec, removePublisher, appendE, viewerConsumerIds,
      viewerTransportIds, pubTransportIds, pubProducerIds, noEffects]
  | some p =>
    simp [closeRoom, closeViewersLoop_spec, removePublisher, appendE, viewerConsumerIds,
      viewerTransportIds, pubTransportIds, pubProducerIds, noEffects]

theorem deleteRoom_none (reg : Registry) (token : String)
    (h : mapGet token reg = none) : deleteRoom reg token = (reg, noEffects) := by
  simp [deleteRoom, h]

/-- Claim C8: deleteRoom closes the room (cascading close of every viewer
consumer and consumer transport, every producer, the producer transport and
the router) and removes the registry entry; an absent token is a no-op, and
deleting twice equals deleting once. -/
theorem C8_deleteRoom_idempotent (reg : Registry) (token : String)
    (hnd : (reg.map Prod.fst).Nodup) :
    (mapGet token reg = none → deleteRoom reg token = (reg, noEffects)) ∧
    (∀ room, mapGet token reg = some room →
      (deleteRoom reg token).1 = mapDelete token reg ∧
      mapGet token (deleteRoom reg token).1 = none ∧
      (deleteRoom reg token).2 =
        ⟨viewerConsumerIds room, viewerTransportIds room ++ pubTransportIds room,
         pubProducerIds room, true⟩) ∧
    deleteRoom (deleteRoom reg token).1 token = ((deleteRoom reg token).1, noEffects) := by
  refine ⟨?_, ?_, ?_⟩
  · intro h
    simp [deleteRoom, h]
  · intro room h
    refine ⟨by simp [deleteRoom, h], ?_, by simp [deleteRoom, h, closeRoom_spec]⟩
    have h1 : (deleteRoom reg token).1 = mapDelete token reg := by simp [deleteRoom, h]
    rw [h1]
    exact mapGet_mapDelete_self token reg hnd
  · cases h : mapGet token reg with
    | none =>
      have h1 : (deleteRoom reg token).1 = reg := by simp [deleteRoom, h]
      rw [h1]
      exact deleteRoom_none reg token h
    | some room =>
      have h1 : (deleteRoom reg token).1 = mapDelete token reg := by simp [deleteRoom, h]
      have h2 : mapGet token (deleteRoom reg token).1 = none := by
        rw [h1]
        exact mapGet_mapDelete_self token reg hnd
      exact deleteRoom_none _ _ h2

def c8room : Room := ⟨"tok", wRouter, some ⟨"alice", 3, [("video", ⟨"p1", "video"⟩)]⟩,
  [("v", ⟨true, 9, [("p1", ⟨"c1", "p1", "video", true⟩)]⟩)]⟩

/-- Witness for C8 at a concrete one-room registry: the delete removes the
entry and closes the consumer, both transports, the producer and the router,
and a second delete is a no-op. -/
theorem C8_deleteRoom_idempotent_witness :
    (deleteRoom [("tok", c8room)] "tok").1 = [] ∧
    (deleteRoom [("tok", c8room)] "tok").2 = ⟨["c1"], [9, 3], ["p1"], true⟩ ∧
    deleteRoom (deleteRoom [("tok", c8room)] "tok").1 "tok" =
      ((deleteRoom [("tok", c8room)] "tok").1, noEffects) := by
  have h := C8_deleteRoom_idempotent [("tok", c8room)] "tok" (by decide)
  have h2 := h.2.1 c8room rfl
  refine ⟨?_, ?_, h.2.2⟩
  · rw [h2.1]
    rfl
  · rw [h2.2.2]
    rfl

/-- Claim C5: after a disconnect the room is removed from the registry
exactly when it has zero viewers and no publisher holding at least one
producer; and hasPublisher is true exactly when the publisher slot is
occupied and the publisher owns at least one producer. The disconnect-driven
deletion step is modelled from the spec (see cleanupAfterDisconnect). -/
theorem C5_room_deletion_exact (reg : Registry) (token : String) (room : Room)
    (h : mapGet token reg = some room)
    (hnd : (reg.map Prod.fst).Nodup) :
    (mapGet token (cleanupAfterDisconnect reg token) = none ↔
      (getViewerCount room = 0 ∧ hasPublisher room = false)) ∧
    (hasPublisher room = true ↔
      ∃ pub, room.publisher = some pub ∧ 0 < pub.producers.length) := by
  constructor
  · constructor
    · intro hdel
      by_cases hc : hasPublisher room = false ∧ getViewerCount room = 0
      · exact ⟨hc.2, hc.1⟩
      · exfalso
        have : cleanupAfterDisconnect reg token = reg := by
          simp [cleanupAfterDisconnect, h, hc]
        rw [this, h] at hdel
        exact Option.noConfusion hdel
    · rintro ⟨h0, h1⟩
      have : cleanupAfterDisconnect reg token = (deleteRoom reg token).1 := by
        simp [cleanupAfterDisconnect, h, h0, h1]
      rw [this]
      have h2 : (deleteRoom reg token).1 = mapDelete token reg := by simp [deleteRoom, h]
      rw [h2]
      exact mapGet_mapDelete_self token reg hnd
  · cases hp : room.publisher with
    | none => simp [hasPublisher, hp]
    | some pub => simp [hasPublisher, hp]

def c5room : Room := ⟨"tok", wRouter, some ⟨"alice", 3, []⟩, []⟩

/-- Witness for C5 at a concrete registry: the room has a publisher record
with an empty producers map and zero viewers, hasPublisher is false, and the
disconnect cleanup removes the room. -/
theorem C5_room_deletion_exact_witness :
    hasPublisher c5room = false ∧
    mapGet "tok" (cleanupAfterDisconnect [("tok", c5room)] "tok") = none := by
  have h := C5_room_deletion_exact [("tok", c5room)] "tok" c5room rfl (by decide)
  exact ⟨rfl, h.1.mpr ⟨rfl, rfl⟩⟩

end RoomMgr

namespace WsSig

open JsMap

theorem authGate_code (db : Db) (T U : String) (C : Bool) (c : Nat) (r : String)
    (h : authGate db T U C = some (c, r)) : c = 1008 := by
  simp only [authGate] at h
  split at h
  · exact Option.noConfusion h
  · split at h
    · exact (congrArg Prod.fst (Option.some.inj h)).symm
    · split at h
      · exact (congrArg Prod.fst (Option.some.inj h)).symm
      · split at h
        · exact (congrArg Prod.fst (Option.some.inj h)).symm
        · exact Option.noConfusion h

/-- Claim C6: on a publisher disconnect the stream record is updated to
isLive false with the end timestamp set and viewer count zero, every viewer
of the room is pushed publisher-ended, and the room — whose viewers map was
cleared and publisher slot nulled, so it has zero viewers — is deleted from
the room table. -/
theorem C6_publisher_disconnect (db : Db) (rooms : Rooms) (token : String)
    (room : WsRoom) (rec : StreamRec)
    (hroom : mapGet token rooms = some room)
    (hrec : mapGet token db = some rec)
    (hnd : (rooms.map Prod.fst).Nodup) :
    mapGet token (handleClose db rooms token "publisher" none).1 =
      some { rec with isLive := false, endTimeSet := true, viewerCount := 0 } ∧
    (handleClose db rooms token "publisher" none).2.2 =
      room.viewers.map (fun v => (v.2.wsId, PushMsg.publisherEnded)) ∧
    mapGet token (handleClose db rooms token "publisher" none).2.1 = none := by
  refine ⟨?_, ?_, ?_⟩
  · simp [handleClose, hroom, dbUpdate, hrec, mapGet_mapSet_self]
  · simp [handleClose, hroom]
  · have h1 : (handleClose db rooms token "publisher" none).2.1 = mapDelete token rooms := by
      simp [handleClose, hroom]
    rw [h1]
    exact mapGet_mapDelete_self token rooms hnd

def c6rec : StreamRec := ⟨"Alice", true, true, false, 1⟩

def c6room : WsRoom := ⟨some ⟨1, 1⟩, [("va", ⟨5, 1⟩)]⟩

/-- Witness for C6 at a concrete room with one viewer: the record goes
offline with the end timestamp and zero count, the viewer socket 5 receives
publisher-ended, and the room is removed. -/
theorem C6_publisher_disconnect_witness :
    mapGet "tok" (handleClose [("tok", c6rec)] [("tok", c6room)] "tok" "publisher" none).1 =
      some ⟨"Alice", false, true, true, 0⟩ ∧
    (handleClose [("tok", c6rec)] [("tok", c6room)] "tok" "publisher" none).2.2 =
      [(5, PushMsg.publisherEnded)] ∧
    mapGet "tok" (handleClose [("tok", c6rec)] [("tok", c6room)] "tok" "publisher" none).2.1 =
      none := by
  have h := C6_publisher_disconnect [("tok", c6rec)] [("tok", c6room)] "tok" c6room c6rec
    rfl rfl (by decide)
  exact ⟨h.1, h.2.1, h.2.2⟩

def c2rec : StreamRec := ⟨"Alice", false, false, false, 0⟩

def c2db : Db := [("tok", c2rec)]

def c2rooms : Rooms := [("tok", ⟨some ⟨1, 1⟩, []⟩)]

def c2paramsPub : ConnParams := ⟨some "tok", none, some "publisher", some "ALICE"⟩

def c2paramsViewer : ConnParams := ⟨none, none, none, none⟩

/-- Claim C2 refuted at two concrete connections: a publisher whose token has
a registered stream record with case-insensitively matching owner is
nevertheless refused (close code 1013, not accepted) because a live
publisher already occupies the room, refuting the stated iff; and a
viewer-role connection with a missing token is closed with 1008 rather than
accepted, refuting always-accepted. -/
theorem C2_counterexample :
    mapGet "tok" c2db = some c2rec ∧
    strLower c2rec.userId = userOf c2paramsPub ∧
    (handleConnection c2db c2rooms c2paramsPub ⟨2, 1⟩ "v1").1 =
      Outcome.closed 1013 "Publisher already connected" ∧
    isCreatorOf c2paramsViewer = false ∧
    (handleConnection c2db c2rooms c2paramsViewer ⟨3, 1⟩ "v2").1 =
      Outcome.closed 1008 "Missing tokenAddress" := by
  refine ⟨rfl, by decide, by decide, rfl, by decide⟩

/-- Claim C2 amended: for any connection whose token parameter is non-empty
(and with the stream lookup modelled as available): a viewer-role connection
is always accepted; a publisher-role connection is accepted if and only if
the claimed identity is non-empty, a stream record for the token exists
whose owner identifier case-insensitively equals the claimed identity, and
no live publisher already occupies the room (otherwise it is refused with
close code 1013 after the room entry may have been created); and every
refusal of the authorization gate itself closes the connection with policy
code 1008 leaving the room table and the record store untouched. -/
theorem C2_amended_connection_gate (db : Db) (rooms : Rooms) (p : ConnParams)
    (ws : WsConn) (vid : String) (htok : tokenOf p ≠ "") :
    (isCreatorOf p = false →
      (handleConnection db rooms p ws vid).1 = Outcome.accepted "viewer" (tokenOf p)) ∧
    (isCreatorOf p = true →
      (isAccepted (handleConnection db rooms p ws vid).1 = true ↔
        (userOf p ≠ "" ∧
         (∃ rec, mapGet (tokenOf p) db = some rec ∧ strLower rec.userId = userOf p) ∧
         hasLivePublisher rooms (tokenOf p) = false))) ∧
    (∀ code reason,
      authGate db (tokenOf p) (userOf p) (isCreatorOf p) = some (code, reason) →
      code = 1008 ∧
      (handleConnection db rooms p ws vid).1 = Outcome.closed code reason ∧
      (handleConnection db rooms p ws vid).2.1 = rooms ∧
      (handleConnection db rooms p ws vid).2.2 = db) := by
  refine ⟨?_, ?_, ?_⟩
  · intro hC
    have hg : authGate db (tokenOf p) (userOf p) false = none := by
      simp [authGate]
    simp [handleConnection, htok, hg, hC]
  · intro hC
    by_cases hU : userOf p = ""
    · have hg : authGate db (tokenOf p) (userOf p) true =
          some (1008, "Missing userAddress") := by
        simp [authGate, hU]
      constructor
      · intro hacc
        simp [handleConnection, htok, hg, hC, isAccepted] at hacc
      · rintro ⟨hne, _⟩
        exact absurd hU hne
    · cases hdb : mapGet (tokenOf p) db with
      | none =>
        have hg : authGate db (tokenOf p) (userOf p) true =
            some (1008, "Stream not registered") := by
          simp [authGate, hU, hdb]
        constructor
        · intro hacc
          simp [handleConnection, htok, hg, hC, isAccepted] at hacc
        · rintro ⟨_, ⟨rec, hrec, _⟩, _⟩
          exact Option.noConfusion hrec
      | some rec =>
        by_cases howner : strLower rec.userId = userOf p
        · have hg : authGate db (tokenOf p) (userOf p) true = none := by
            simp [authGate, hU, hdb, howner]
          cases hr : mapGet (tokenOf p) rooms with
          | none =>
            have hlive : hasLivePublisher rooms (tokenOf p) = false := by
              simp [hasLivePublisher, hr]
            have hacc : (handleConnection db rooms p ws vid).1 =
                Outcome.accepted "publisher" (tokenOf p) := by
              simp [handleConnection, htok, hg, hC, hr, mapGet_mapSet_self, emptyWsRoom]
            constructor
            · intro _
              exact ⟨hU, ⟨rec, rfl, howner⟩, hlive⟩
            · intro _
              simp [hacc, isAccepted]
          | some r =>
            cases hpub : r.publisher with
            | none =>
              have hlive : hasLivePublisher rooms (tokenOf p) = false := by
                simp [hasLivePublisher, hr, hpub]
              have hacc : (handleConnection db rooms p ws vid).1 =
                  Outcome.accepted "publisher" (tokenOf p) := by
                simp [handleConnection, htok, hg, hC, hr, hpub]
              constructor
              · intro _
                exact ⟨hU, ⟨rec, rfl, howner⟩, hlive⟩
              · intro _
                simp [hacc, isAccepted]
            | some pub =>
              by_cases hrs : pub.readyState = 1
              · have hlive : hasLivePublisher rooms (tokenOf p) = true := by
                  simp [hasLivePublisher, hr, hpub, hrs]
                have hclosed : (handleConnection db rooms p ws vid).1 =
                    Outcome.closed 1013 "Publisher already connected" := by
                  simp [handleConnection, htok, hg, hC, hr, hpub, hrs]
                constructor
                · intro hacc
                  rw [hclosed] at hacc
                  simp [isAccepted] at hacc
                · rintro ⟨_, _, hl⟩
                  rw [hlive] at hl
                  exact Bool.noConfusion hl
              · have hlive : hasLivePublisher rooms (tokenOf p) = false := by
                  simp [hasLivePublisher, hr, hpub, hrs]
                have hacc : (handleConnection db rooms p ws vid).1 =
                    Outcome.accepted "publisher" (tokenOf p) := by
                  simp [handleConnection, htok, hg, hC, hr, hpub, hrs]
                constructor
                · intro _
                  exact ⟨hU, ⟨rec, rfl, howner⟩, hlive⟩
                · intro _
                  simp [hacc, isAccepted]
        · have hg : authGate db (tokenOf p) (userOf p) true =
              some (1008, "Not authorized publisher") := by
            simp [authGate, hU, hdb, howner]
          constructor
          · intro hacc
            simp [handleConnection, htok, hg, hC, isAccepted] at hacc
          · rintro ⟨_, ⟨rec2, hrec2, howner2⟩, _⟩
            cases Option.some.inj hrec2
            exact absurd howner2 howner
  · intro code reason hg
    refine ⟨authGate_code db (tokenOf p) (userOf p) (isCreatorOf p) code reason hg, ?_, ?_, ?_⟩
    · simp [handleConnection, htok, hg]
    · simp [handleConnection, htok, hg]
    · simp [handleConnection, htok, hg]

/-- Witness for the amended C2 at concrete connections: a viewer with token
tok is accepted, and an authorized publisher with no live publisher in the
room is accepted. -/
theorem C2_amended_connection_gate_witness :
    (handleConnection c2db [] ⟨some "tok", none, none, none⟩ ⟨4, 1⟩ "v9").1 =
      Outcome.accepted "viewer" "tok" ∧
    isAccepted (handleConnection c2db [] c2paramsPub ⟨4, 1⟩ "v9").1 = true := by
  constructor
  · exact (C2_amended_connection_gate c2db [] ⟨some "tok", none, none, none⟩ ⟨4, 1⟩ "v9"
      (by decide)).1 rfl
  · exact ((C2_amended_connection_gate c2db [] c2paramsPub ⟨4, 1⟩ "v9" (by decide)).2.1
      rfl).mpr ⟨by decide, ⟨c2rec, rfl, by decide⟩, rfl⟩

end WsSig
